import Mathlib

/- Verification development for the Investment-Tracker repository.
   Shallow embedding of the reconciliation engine (src/utils/calculations.ts,
   healTransactionChain and the state handlers in src/components/TransactionModal.tsx,
   handleAddTransaction in src/App.tsx) and of the CSV import parser
   (parseImportCSV in src/unnamed/part_003).
   JavaScript numbers are modelled as rationals; enum values are modelled by the
   strings they hold at run time. -/

/-- Models the JavaScript expression x || d on numbers: 0 is falsy, any other
rational is truthy. The NaN case of JavaScript is outside the rational model. -/
def jsOr (x d : ℚ) : ℚ := if x = 0 then d else x

/-- Models the JavaScript expression x || d on strings: the empty string is falsy. -/
def jsOrS (x d : String) : String := if x = "" then d else x

/-- Result record of calculateProfitStats (src/utils/calculations.ts). -/
structure ProfitStats where
  profitAmount : ℚ
  profitPercentage : ℚ
  type : String
deriving DecidableEq

/-- The base (denominator) chosen by calculateProfitStats, line 19 of
src/utils/calculations.ts: prevBalance if positive, else userDeposit if positive, else 1. -/
def profitBase (prevBalance userDeposit : ℚ) : ℚ :=
  if prevBalance > 0 then prevBalance else if userDeposit > 0 then userDeposit else 1

/-- Embedding of calculateProfitStats from src/utils/calculations.ts. -/
def calculateProfitStats (prevBalance currBalance userDeposit withdrawal : ℚ) : ProfitStats :=
  let diff := currBalance - prevBalance
  let netExternalFlow := userDeposit - withdrawal
  let profitAmount := diff - netExternalFlow
  let base := profitBase prevBalance userDeposit
  let profitPercentage := (profitAmount / base) * 100
  let type :=
    if withdrawal > 0 then "WITHDRAWAL"
    else if userDeposit > 0 ∧ profitAmount > 0 then "MIXED"
    else if userDeposit > 0 then "USER_DEPOSIT"
    else "BANK_PROFIT"
  { profitAmount := profitAmount, profitPercentage := profitPercentage, type := type }

/-- Embedding of the Account interface of src/types.ts. currency, investmentType and
riskLevel hold the run-time strings of the corresponding TypeScript enum or union values. -/
structure Account where
  id : String
  bankName : String
  currency : String
  investmentType : String
  startDate : String
  maturityPeriod : ℚ
  riskLevel : String
  currentBalance : ℚ
  initialCapital : ℚ
deriving DecidableEq

/-- Embedding of the Transaction interface of src/types.ts. -/
structure Transaction where
  id : String
  accountId : String
  date : String
  previousBalance : ℚ
  currentBalance : ℚ
  userDeposit : ℚ
  withdrawal : ℚ
  calculatedProfit : ℚ
  profitPercentage : ℚ
  type : String
deriving DecidableEq

/-- Digits-only parse of a character list to a natural number. -/
def charDigits (l : List Char) : Option Nat :=
  if l ≠ [] ∧ l.all (fun c => c.isDigit) then
    some (l.foldl (fun n c => n * 10 + (c.toNat - 48)) 0)
  else none

/-- Models the sort key new Date(t.date or 0).getTime() used by healTransactionChain.
The application writes ISO dates YYYY-MM-DD, on which the timestamp is order-isomorphic
to the integer YYYYMMDD obtained by deleting the dashes; an empty or unparseable date
maps to 0, as the fallback new Date(0) does for an empty date field. -/
def dateKey (s : String) : Int :=
  ((charDigits (s.data.filter (fun c => c ≠ Char.ofNat 45))).getD 0 : Nat)

/-- The comparison underlying the stable ascending sort (a, b) => dateKey a - dateKey b. -/
def txLe (a b : Transaction) : Bool := dateKey a.date ≤ dateKey b.date

/-- Models the ES2019 stable Array.sort with the numeric date comparator. -/
def sortByDate (l : List Transaction) : List Transaction := l.mergeSort txLe

/-- The date-sorted chain of one account: filter by accountId, then stable date sort,
exactly as healTransactionChain builds accTxs (TransactionModal.tsx lines 447 to 449). -/
def accountChain (txs : List Transaction) (aid : String) : List Transaction :=
  sortByDate (txs.filter (fun t => t.accountId = aid))

/-- Embedding of the accTxs.map replay loop of healTransactionChain
(TransactionModal.tsx lines 452 to 463): the mutable runningBalance becomes the
first argument threaded through the recursion. -/
def healReplay (runningBalance : ℚ) : List Transaction → List Transaction
  | [] => []
  | tx :: rest =>
    let stats := calculateProfitStats runningBalance tx.currentBalance tx.userDeposit tx.withdrawal
    { tx with previousBalance := runningBalance,
              calculatedProfit := stats.profitAmount,
              profitPercentage := stats.profitPercentage,
              type := stats.type } :: healReplay tx.currentBalance rest

/-- Return record of healTransactionChain. -/
structure HealResult where
  healedTxs : List Transaction
  updatedAccounts : List Account
deriving DecidableEq

/-- Embedding of healTransactionChain (TransactionModal.tsx lines 442 to 472). -/
def healTransactionChain (allTransactions : List Transaction) (affectedAccountId : String)
    (allAccounts : List Account) : HealResult :=
  match allAccounts.find? (fun a => a.id = affectedAccountId) with
  | none => { healedTxs := allTransactions, updatedAccounts := allAccounts }
  | some account =>
    let otherTxs := allTransactions.filter (fun t => t.accountId ≠ affectedAccountId)
    let healedAccTxs := healReplay (jsOr account.initialCapital 0)
      (accountChain allTransactions affectedAccountId)
    let finalBalance := match healedAccTxs.getLast? with
      | some tx => tx.currentBalance
      | none => account.initialCapital
    { healedTxs := otherTxs ++ healedAccTxs,
      updatedAccounts := allAccounts.map (fun a =>
        if a.id = affectedAccountId then { a with currentBalance := finalBalance } else a) }

/-- The two state collections held by the App component. -/
structure AppState where
  accounts : List Account
  transactions : List Transaction
deriving DecidableEq

/-- Embedding of handleSaveTransaction (TransactionModal.tsx lines 474 to 488);
editing is true when editingTransaction was set (edit), false for a new record (create). -/
def handleSaveTransaction (s : AppState) (editing : Bool) (tx : Transaction) : AppState :=
  let newTransactionsList :=
    if editing then s.transactions.map (fun t => if t.id = tx.id then tx else t)
    else s.transactions ++ [tx]
  let r := healTransactionChain newTransactionsList tx.accountId s.accounts
  { accounts := r.updatedAccounts, transactions := r.healedTxs }

/-- Embedding of confirmDeleteTransaction (TransactionModal.tsx lines 490 to 496). -/
def confirmDeleteTransaction (s : AppState) (txToDelete : Transaction) : AppState :=
  let remainingTxs := s.transactions.filter (fun t => t.id ≠ txToDelete.id)
  let r := healTransactionChain remainingTxs txToDelete.accountId s.accounts
  { accounts := r.updatedAccounts, transactions := r.healedTxs }

/-- Embedding of handleAddTransaction (src/App.tsx lines 63 to 71): appends the new
transaction and overwrites the account balance with the new currentBalance, with no re-heal. -/
def handleAddTransaction (s : AppState) (newTx : Transaction) : AppState :=
  { accounts := s.accounts.map (fun acc =>
      if acc.id = newTx.accountId then { acc with currentBalance := newTx.currentBalance } else acc),
    transactions := s.transactions ++ [newTx] }

/-- Boolean check that the second list occurs as a prefix of the first. -/
def listStartsWith : List Char → List Char → Bool
  | _, [] => true
  | [], _ :: _ => false
  | c :: cs, d :: ds => c = d && listStartsWith cs ds

/-- Boolean check that the second list occurs as a contiguous subsequence of the first;
models the JavaScript String.includes used for the CSV section markers. -/
def listContainsSeq : List Char → List Char → Bool
  | [], needle => needle.isEmpty
  | c :: cs, needle => listStartsWith (c :: cs) needle || listContainsSeq cs needle

/-- Number of double-quote characters in the list. -/
def countQuotes (l : List Char) : Nat := l.countP (fun c => c = '\"')

/-- Models the regex split on commas followed by an even number of quotes, the
quote-aware field splitter of parseImportCSV. -/
def splitSmartAux : List Char → List Char → List (List Char)
  | acc, [] => [acc.reverse]
  | acc, c :: rest =>
    if c = ',' ∧ countQuotes rest % 2 = 0 then
      acc.reverse :: splitSmartAux [] rest
    else
      splitSmartAux (c :: acc) rest

/-- Whitespace test used to model String.prototype.trim. -/
def isWS (c : Char) : Bool := c = ' ' ∨ c = '\t' ∨ c = '\r' ∨ c = '\n'

/-- Models String.prototype.trim on a character list. -/
def trimL (l : List Char) : List Char :=
  ((l.dropWhile isWS).reverse.dropWhile isWS).reverse

/-- Models p.replace with the regex matching a leading or a trailing quote. -/
def stripQuotesL (l : List Char) : List Char :=
  let l1 := match l with
    | '\"' :: rest => rest
    | other => other
  if l1.getLast? = some '\"' then l1.dropLast else l1

/-- The cleanParts value computed for one data line of parseImportCSV: quote-aware
split, trim each part, strip one leading and one trailing quote. -/
def cleanLine (line : List Char) : List String :=
  (splitSmartAux [] line).map (fun p => String.mk (stripQuotesL (trimL p)))

/-- Split a character list at every occurrence of the separator character. -/
def splitOnChar (sep : Char) : List Char → List (List Char)
  | [] => [[]]
  | c :: rest =>
    if c = sep then [] :: splitOnChar sep rest
    else
      match splitOnChar sep rest with
      | [] => [[c]]
      | h :: t => (c :: h) :: t

/-- Models the JavaScript coercion Number(s) followed by || 0, on plain decimal
literals with an optional minus sign and an optional fraction part; any other
string coerces to 0, as both NaN and 0 are falsy. -/
def jsNumber0 (s : String) : ℚ :=
  let t := trimL s.data
  if t = [] then 0
  else
    let neg := listStartsWith t [Char.ofNat 45]
    let t2 := if neg then t.drop 1 else t
    let v : Option ℚ :=
      match splitOnChar '.' t2 with
      | [ip] => (charDigits ip).map (fun n => (n : ℚ))
      | [ip, fp] =>
        match charDigits ip, charDigits fp with
        | some i, some f => some ((i : ℚ) + (f : ℚ) / ((10 : ℚ) ^ fp.length))
        | _, _ => none
      | _ => none
    match v with
    | none => 0
    | some x => if neg then -x else x

/-- Models generateId of src/unnamed/part_003: a fresh identifier drawn at run time;
no claim depends on its value. -/
def generateId : String := "generated-id"

/-- Models the current date string taken at run time for empty date fields;
no claim depends on its value. -/
def todayISO : String := "1970-01-01"

/-- The currentSection state of the parseImportCSV line loop. -/
inductive ImportSection
  | NONE
  | ACCOUNTS
  | TRANSACTIONS
deriving DecidableEq

/-- Accumulator of the parseImportCSV line loop: the mutable currentSection together
with the accounts and transactions arrays being built. -/
structure ParseState where
  currentSection : ImportSection
  accounts : List Account
  transactions : List Transaction
deriving DecidableEq

/-- Embedding of the body of the lines.forEach loop of parseImportCSV
(src/unnamed/part_003 lines 50 to 97). -/
def processLine (st : ParseState) (line : List Char) : ParseState :=
  let upperLine := line.map Char.toUpper
  if listContainsSeq upperLine "---ACCOUNTS---".data then
    { st with currentSection := ImportSection.ACCOUNTS }
  else if listContainsSeq upperLine "---TRANSACTIONS---".data then
    { st with currentSection := ImportSection.TRANSACTIONS }
  else if listStartsWith (line.map Char.toLower) "id,".data then st
  else
    let cleanParts := cleanLine line
    if st.currentSection = ImportSection.ACCOUNTS ∧ cleanParts.length ≥ 8 then
      let rawCurrency := cleanParts.getD 2 ""
      let currency := if rawCurrency = "TRY" ∨ rawCurrency = "USD" then rawCurrency else "TRY"
      { st with accounts := st.accounts ++ [{
          id := jsOrS (cleanParts.getD 0 "") generateId,
          bankName := jsOrS (cleanParts.getD 1 "") "Unknown Bank",
          currency := currency,
          investmentType := jsOrS (cleanParts.getD 3 "") "Participation Account",
          startDate := jsOrS (cleanParts.getD 4 "") todayISO,
          maturityPeriod := jsNumber0 (cleanParts.getD 5 ""),
          riskLevel := jsOrS (cleanParts.getD 6 "") "Low",
          currentBalance := jsNumber0 (cleanParts.getD 7 ""),
          initialCapital := jsOr (jsNumber0 (cleanParts.getD 8 "")) (jsNumber0 (cleanParts.getD 7 "")) }] }
    else if st.currentSection = ImportSection.TRANSACTIONS ∧ cleanParts.length ≥ 9 then
      { st with transactions := st.transactions ++ [{
          id := jsOrS (cleanParts.getD 0 "") generateId,
          accountId := cleanParts.getD 1 "",
          date := jsOrS (cleanParts.getD 2 "") todayISO,
          previousBalance := jsNumber0 (cleanParts.getD 3 ""),
          currentBalance := jsNumber0 (cleanParts.getD 4 ""),
          userDeposit := jsNumber0 (cleanParts.getD 5 ""),
          withdrawal := jsNumber0 (cleanParts.getD 6 ""),
          calculatedProfit := jsNumber0 (cleanParts.getD 7 ""),
          profitPercentage := jsNumber0 (cleanParts.getD 8 ""),
          type := jsOrS (cleanParts.getD 9 "") "BANK_PROFIT" }] }
    else st

/-- Models the CRLF to LF normalization content.replace of parseImportCSV. -/
def normalizeNewlines : List Char → List Char
  | [] => []
  | [c] => [c]
  | c :: d :: rest =>
    if c = '\r' ∧ d = '\n' then '\n' :: normalizeNewlines rest
    else c :: normalizeNewlines (d :: rest)

/-- Embedding of parseImportCSV (src/unnamed/part_003 lines 40 to 100): strip a
leading byte order mark, normalize newlines, split into trimmed nonempty lines and
fold the line handler over them. -/
def parseImportCSV (content : String) : ParseState :=
  let noBom := match content.data with
    | '\uFEFF' :: rest => rest
    | other => other
  let normalizedContent := normalizeNewlines noBom
  let lines := ((splitOnChar '\n' normalizedContent).map trimL).filter (fun l => l.length > 0)
  lines.foldl processLine
    { currentSection := ImportSection.NONE, accounts := [], transactions := [] }

/-- Embedding of handleImport (TransactionModal.tsx lines 511 to 524). -/
def handleImport (s : AppState) (newAccounts : List Account)
    (newTransactions : List Transaction) : AppState :=
  if newAccounts.isEmpty then s
  else
    let existingAccIds := s.accounts.map (fun a => a.id)
    let uniqueNewAccounts := newAccounts.filter (fun a => a.id ≠ "" ∧ a.id ∉ existingAccIds)
    let existingTxIds := s.transactions.map (fun t => t.id)
    let uniqueNewTxs := newTransactions.filter (fun t => t.id ≠ "" ∧ t.id ∉ existingTxIds)
    { accounts := s.accounts ++ uniqueNewAccounts,
      transactions := s.transactions ++ uniqueNewTxs }

/-- Spec predicate, section 8 item 6 of the spec: starting from init, every
transaction in the list has previousBalance equal to the running balance and hands
its own currentBalance to the next one. -/
def chainContinuous (init : ℚ) : List Transaction → Prop
  | [] => True
  | t :: ts => t.previousBalance = init ∧ chainContinuous t.currentBalance ts

/-- All fields of the two accounts agree except possibly currentBalance. -/
def Account.sameExceptBalance (a b : Account) : Prop :=
  a.id = b.id ∧ a.bankName = b.bankName ∧ a.currency = b.currency ∧
  a.investmentType = b.investmentType ∧ a.startDate = b.startDate ∧
  a.maturityPeriod = b.maturityPeriod ∧ a.riskLevel = b.riskLevel ∧
  a.initialCapital = b.initialCapital

/-- The authoritative input fields of the two transactions agree: id, accountId, date,
currentBalance, userDeposit, withdrawal. The derived fields may differ. -/
def Transaction.sameInputs (a b : Transaction) : Prop :=
  a.id = b.id ∧ a.accountId = b.accountId ∧ a.date = b.date ∧
  a.currentBalance = b.currentBalance ∧ a.userDeposit = b.userDeposit ∧
  a.withdrawal = b.withdrawal

/-- Spec predicate, data model section 3: the account looked up by aid has
currentBalance equal to the currentBalance of its date-latest transaction, or its
initialCapital when it has no transactions. -/
def balanceInvariant (s : AppState) (aid : String) : Prop :=
  ∀ a, s.accounts.find? (fun x => x.id = aid) = some a →
    a.currentBalance =
      match (accountChain s.transactions aid).getLast? with
      | some t => t.currentBalance
      | none => a.initialCapital

lemma jsOr_zero (x : ℚ) : jsOr x 0 = x := by
  unfold jsOr; split <;> simp_all

lemma txLe_trans (a b c : Transaction) : txLe a b → txLe b c → txLe a c := by
  simp only [txLe, decide_eq_true_eq]; omega

lemma txLe_total (a b : Transaction) : txLe a b || txLe b a := by
  simp only [txLe, Bool.or_eq_true, decide_eq_true_eq]; omega

lemma healReplay_map_eq {β : Type} (f : Transaction → β)
    (hf : ∀ (tx : Transaction) (pb cp pp : ℚ) (ty : String),
      f { tx with previousBalance := pb, calculatedProfit := cp,
                  profitPercentage := pp, type := ty } = f tx) :
    ∀ (b : ℚ) (l : List Transaction), (healReplay b l).map f = l.map f := by
  intro b l
  induction l generalizing b with
  | nil => rfl
  | cons tx rest ih => simp [healReplay, hf, ih]

lemma healReplay_accountId_all {aid : String} (b : ℚ) (l : List Transaction)
    (hl : ∀ t ∈ l, t.accountId = aid) : ∀ t ∈ healReplay b l, t.accountId = aid := by
  induction l generalizing b with
  | nil => simp [healReplay]
  | cons tx rest ih =>
    intro t ht
    simp only [healReplay, List.mem_cons] at ht
    rcases ht with h | h
    · subst h; exact hl tx (List.mem_cons_self _ _)
    · exact ih tx.currentBalance (fun u hu => hl u (List.mem_cons_of_mem _ hu)) t h

lemma healReplay_pairwise (b : ℚ) (l : List Transaction)
    (h : List.Pairwise (fun x y => txLe x y = true) l) :
    List.Pairwise (fun x y => txLe x y = true) (healReplay b l) := by
  induction l generalizing b with
  | nil => simp [healReplay]
  | cons tx rest ih =>
    rcases List.pairwise_cons.mp h with ⟨h1, h2⟩
    refine List.pairwise_cons.mpr ⟨?_, ih tx.currentBalance h2⟩
    intro y hy
    have hdates : (healReplay tx.currentBalance rest).map (fun t => t.date) =
        rest.map (fun t => t.date) :=
      healReplay_map_eq (fun t => t.date) (fun _ _ _ _ _ => rfl) _ _
    have : y.date ∈ rest.map (fun t => t.date) := by
      rw [← hdates]; exact List.mem_map_of_mem _ hy
    rcases List.mem_map.mp this with ⟨z, hz, hzd⟩
    have := h1 z hz
    simp only [txLe, decide_eq_true_eq] at this ⊢
    show dateKey tx.date ≤ dateKey y.date
    rw [← hzd]; exact this

lemma chainContinuous_healReplay (b : ℚ) (l : List Transaction) :
    chainContinuous b (healReplay b l) := by
  induction l generalizing b with
  | nil => simp [healReplay, chainContinuous]
  | cons tx rest ih => exact ⟨rfl, ih tx.currentBalance⟩

lemma healReplay_idem (b : ℚ) (l : List Transaction) :
    healReplay b (healReplay b l) = healReplay b l := by
  induction l generalizing b with
  | nil => rfl
  | cons tx rest ih => simp [healReplay, ih]

lemma healReplay_profit (b : ℚ) (l : List Transaction) :
    ∀ t ∈ healReplay b l,
      t.calculatedProfit = t.currentBalance - t.previousBalance - t.userDeposit + t.withdrawal := by
  induction l generalizing b with
  | nil => simp [healReplay]
  | cons tx rest ih =>
    intro t ht
    simp only [healReplay, List.mem_cons] at ht
    rcases ht with h | h
    · subst h
      simp only [calculateProfitStats]
      ring
    · exact ih tx.currentBalance t h

lemma healReplay_sameInputs (b : ℚ) (l : List Transaction) :
    List.Forall₂ Transaction.sameInputs l (healReplay b l) := by
  induction l generalizing b with
  | nil => simp [healReplay]
  | cons tx rest ih =>
    exact List.Forall₂.cons ⟨rfl, rfl, rfl, rfl, rfl, rfl⟩ (ih tx.currentBalance)

lemma sortByDate_pairwise (l : List Transaction) :
    List.Pairwise (fun x y => txLe x y = true) (sortByDate l) :=
  List.sorted_mergeSort (fun a b c => txLe_trans a b c) (fun a b => txLe_total a b) l

lemma sortByDate_of_sorted {l : List Transaction}
    (h : List.Pairwise (fun x y => txLe x y = true) l) : sortByDate l = l :=
  List.mergeSort_of_sorted h

lemma mem_accountChain {txs : List Transaction} {aid : String} {t : Transaction}
    (ht : t ∈ accountChain txs aid) : t.accountId = aid := by
  have := List.mem_mergeSort.mp ht
  simpa using (List.mem_filter.mp this).2

lemma heal_some {txs : List Transaction} {aid : String} {accs : List Account}
    {account : Account} (h : accs.find? (fun a => a.id = aid) = some account) :
    healTransactionChain txs aid accs =
      { healedTxs := txs.filter (fun t => t.accountId ≠ aid) ++
          healReplay (jsOr account.initialCapital 0) (accountChain txs aid),
        updatedAccounts := accs.map (fun a => if a.id = aid then
          { a with currentBalance :=
              match (healReplay (jsOr account.initialCapital 0) (accountChain txs aid)).getLast? with
              | some tx => tx.currentBalance
              | none => account.initialCapital } else a) } := by
  simp only [healTransactionChain, h]

lemma filter_self_ne (txs : List Transaction) (aid : String) :
    (txs.filter (fun t => t.accountId ≠ aid)).filter (fun t => t.accountId ≠ aid) =
      txs.filter (fun t => t.accountId ≠ aid) := by
  rw [List.filter_eq_self]
  intro a ha
  exact (List.mem_filter.mp ha).2

lemma filter_healReplay_eq_nil (b : ℚ) (txs : List Transaction) (aid : String) :
    (healReplay b (accountChain txs aid)).filter (fun t => t.accountId ≠ aid) = [] := by
  rw [List.filter_eq_nil_iff]
  intro a ha
  have := healReplay_accountId_all b (accountChain txs aid)
    (fun u hu => mem_accountChain hu) a ha
  simp [this]

lemma filter_healReplay_eq_self (b : ℚ) (txs : List Transaction) (aid : String) :
    (healReplay b (accountChain txs aid)).filter (fun t => t.accountId = aid) =
      healReplay b (accountChain txs aid) := by
  rw [List.filter_eq_self]
  intro a ha
  have := healReplay_accountId_all b (accountChain txs aid)
    (fun u hu => mem_accountChain hu) a ha
  simp [this]

lemma filter_ne_then_eq_nil (txs : List Transaction) (aid : String) :
    (txs.filter (fun t => t.accountId ≠ aid)).filter (fun t => t.accountId = aid) = [] := by
  rw [List.filter_eq_nil_iff]
  intro a ha
  have := (List.mem_filter.mp ha).2
  simp at this
  simp [this]

lemma heal_healedTxs_filter_ne (txs : List Transaction) (aid : String) (accs : List Account) :
    (healTransactionChain txs aid accs).healedTxs.filter (fun t => t.accountId ≠ aid) =
      txs.filter (fun t => t.accountId ≠ aid) := by
  cases hfind : accs.find? (fun a => a.id = aid) with
  | none => simp [healTransactionChain, hfind]
  | some account =>
    rw [heal_some hfind]
    dsimp only
    rw [List.filter_append, filter_self_ne, filter_healReplay_eq_nil, List.append_nil]

lemma heal_healedTxs_filter_eq {txs : List Transaction} {aid : String} {accs : List Account}
    {account : Account} (hfind : accs.find? (fun a => a.id = aid) = some account) :
    (healTransactionChain txs aid accs).healedTxs.filter (fun t => t.accountId = aid) =
      healReplay (jsOr account.initialCapital 0) (accountChain txs aid) := by
  rw [heal_some hfind]
  dsimp only
  rw [List.filter_append, filter_ne_then_eq_nil, filter_healReplay_eq_self, List.nil_append]

lemma heal_accountChain {txs : List Transaction} {aid : String} {accs : List Account}
    {account : Account} (hfind : accs.find? (fun a => a.id = aid) = some account) :
    accountChain (healTransactionChain txs aid accs).healedTxs aid =
      healReplay (jsOr account.initialCapital 0) (accountChain txs aid) := by
  unfold accountChain sortByDate
  rw [heal_healedTxs_filter_eq hfind]
  exact List.mergeSort_of_sorted
    (healReplay_pairwise _ _ (sortByDate_pairwise (txs.filter (fun t => t.accountId = aid))))

lemma find?_map_account (accs : List Account) (aid : String) (account : Account)
    (f : Account → Account) (hid : ∀ a, (f a).id = a.id)
    (h : accs.find? (fun a => a.id = aid) = some account) :
    (accs.map f).find? (fun a => a.id = aid) = some (f account) := by
  induction accs with
  | nil => simp at h
  | cons a rest ih =>
    by_cases ha : a.id = aid
    · rw [List.find?_cons_of_pos _ (by simpa using ha)] at h
      injection h with h
      subst h
      rw [List.map_cons, List.find?_cons_of_pos _ (by simpa [hid] using ha)]
    · rw [List.find?_cons_of_neg _ (by simpa using ha)] at h
      rw [List.map_cons, List.find?_cons_of_neg _ (by simpa [hid] using ha)]
      exact ih h

lemma heal_updated_find? {txs : List Transaction} {aid : String} {accs : List Account}
    {account : Account} (hfind : accs.find? (fun a => a.id = aid) = some account) :
    (healTransactionChain txs aid accs).updatedAccounts.find? (fun a => a.id = aid) =
      some { account with currentBalance :=
        match (healReplay (jsOr account.initialCapital 0) (accountChain txs aid)).getLast? with
        | some tx => tx.currentBalance
        | none => account.initialCapital } := by
  have haid : account.id = aid := by simpa using List.find?_some hfind
  rw [heal_some hfind]
  dsimp only
  have := find?_map_account accs aid account
    (fun a => if a.id = aid then { a with currentBalance :=
        match (healReplay (jsOr account.initialCapital 0) (accountChain txs aid)).getLast? with
        | some tx => tx.currentBalance
        | none => account.initialCapital } else a)
    (fun a => by by_cases h : a.id = aid <;> simp [h]) hfind
  simpa [haid] using this

lemma healResult_eq_of_fields {x y : HealResult}
    (h1 : x.healedTxs = y.healedTxs) (h2 : x.updatedAccounts = y.updatedAccounts) : x = y := by
  cases x; cases y; cases h1; cases h2; rfl

/-- Sample account used by the concrete witnesses. -/
def accA : Account :=
  { id := "1", bankName := "B", currency := "TRY", investmentType := "Participation Account",
    startDate := "2024-01-01", maturityPeriod := 12, riskLevel := "Low",
    currentBalance := 100, initialCapital := 100 }

/-- Sample January transaction used by the concrete witnesses. -/
def txJan : Transaction :=
  { id := "t1", accountId := "1", date := "2024-01-01", previousBalance := 0,
    currentBalance := 1100, userDeposit := 0, withdrawal := 0,
    calculatedProfit := 0, profitPercentage := 0, type := "BANK_PROFIT" }

/-- Sample February transaction used by the concrete witnesses. -/
def txFeb : Transaction :=
  { id := "t2", accountId := "1", date := "2024-02-01", previousBalance := 0,
    currentBalance := 1250, userDeposit := 100, withdrawal := 0,
    calculatedProfit := 0, profitPercentage := 0, type := "BANK_PROFIT" }

/-- The healed image of txJan when replayed from balance 100. -/
def txJanHealed : Transaction :=
  { id := "t1", accountId := "1", date := "2024-01-01", previousBalance := 100,
    currentBalance := 1100, userDeposit := 0, withdrawal := 0,
    calculatedProfit := 1000, profitPercentage := 1000, type := "BANK_PROFIT" }

/-- C1: after healing, for every consecutive pair of the affected account transactions
taken in date-sorted order, the later previousBalance equals the earlier currentBalance,
and the first previousBalance equals the account initialCapital. -/
theorem c1_chain_continuity {txs : List Transaction} {aid : String} {accs : List Account}
    {account : Account} (h : accs.find? (fun a => a.id = aid) = some account) :
    chainContinuous account.initialCapital
      (accountChain (healTransactionChain txs aid accs).healedTxs aid) := by
  rw [heal_accountChain h, jsOr_zero]
  exact chainContinuous_healReplay _ _

theorem c1_witness :
    chainContinuous accA.initialCapital
      (accountChain (healTransactionChain [txFeb, txJan] "1" [accA]).healedTxs "1") :=
  c1_chain_continuity (by decide)

/-- C2: healing is idempotent; healing the healed transactions against the updated
accounts returns the heal result unchanged, field for field. -/
theorem c2_heal_idempotent (txs : List Transaction) (aid : String) (accs : List Account) :
    healTransactionChain (healTransactionChain txs aid accs).healedTxs aid
        (healTransactionChain txs aid accs).updatedAccounts =
      healTransactionChain txs aid accs := by
  cases hfind : accs.find? (fun a => a.id = aid) with
  | none =>
    have hne : healTransactionChain txs aid accs =
        { healedTxs := txs, updatedAccounts := accs } := by
      simp [healTransactionChain, hfind]
    rw [hne]
    exact hne
  | some account =>
    apply healResult_eq_of_fields
    · rw [heal_some (heal_updated_find? hfind)]
      dsimp only
      rw [heal_healedTxs_filter_ne, heal_accountChain hfind, healReplay_idem]
      rw [heal_some hfind]
    · rw [heal_some (heal_updated_find? hfind)]
      dsimp only
      rw [heal_accountChain hfind, healReplay_idem]
      rw [heal_some hfind]
      dsimp only
      rw [List.map_map]
      apply List.map_congr_left
      intro a _
      by_cases h : a.id = aid <;> simp [h]

/-- C3: the classifier profitAmount is currentBalance minus previousBalance minus
userDeposit plus withdrawal, and after a heal every transaction of the healed account
satisfies the same identity on its stored fields. -/
theorem c3_profit_identity (prev curr dep wd : ℚ) {txs : List Transaction} {aid : String}
    {accs : List Account} {account : Account}
    (h : accs.find? (fun a => a.id = aid) = some account)
    (t : Transaction) (ht : t ∈ (healTransactionChain txs aid accs).healedTxs)
    (hacc : t.accountId = aid) :
    (calculateProfitStats prev curr dep wd).profitAmount = curr - prev - dep + wd ∧
    t.calculatedProfit = t.currentBalance - t.previousBalance - t.userDeposit + t.withdrawal := by
  constructor
  · simp only [calculateProfitStats]
    ring
  · rw [heal_some h] at ht
    dsimp only at ht
    rcases List.mem_append.mp ht with hmem | hmem
    · exfalso
      have := (List.mem_filter.mp hmem).2
      simp [hacc] at this
    · exact healReplay_profit _ _ t hmem

theorem c3_witness :
    (calculateProfitStats 1 2 0 0).profitAmount = 2 - 1 - 0 + 0 ∧
    txJanHealed.calculatedProfit = txJanHealed.currentBalance - txJanHealed.previousBalance -
      txJanHealed.userDeposit + txJanHealed.withdrawal := by
  have hfind : [accA].find? (fun a => a.id = "1") = some accA := by decide
  have hchain : accountChain [txJan] "1" = [txJan] := by
    simp [accountChain, sortByDate, txJan]
  have hreplay : healReplay (jsOr accA.initialCapital 0) (accountChain [txJan] "1") =
      [txJanHealed] := by
    rw [hchain]
    norm_num [healReplay, calculateProfitStats, profitBase, jsOr, accA, txJan, txJanHealed]
  refine @c3_profit_identity 1 2 0 0 [txJan] "1" [accA] accA hfind txJanHealed ?_ (by decide)
  rw [heal_some hfind]
  dsimp only
  rw [hreplay]
  simp

/-- C4: the classifier type tag follows the first-match priority withdrawal over mixed
over deposit over bank profit, and the four concrete examples of the spec hold. -/
theorem c4_type_priority :
    (∀ prev curr dep wd : ℚ, wd > 0 →
      (calculateProfitStats prev curr dep wd).type = "WITHDRAWAL") ∧
    (∀ prev curr dep wd : ℚ, ¬ wd > 0 → dep > 0 →
      (calculateProfitStats prev curr dep wd).profitAmount > 0 →
      (calculateProfitStats prev curr dep wd).type = "MIXED") ∧
    (∀ prev curr dep wd : ℚ, ¬ wd > 0 → dep > 0 →
      ¬ (calculateProfitStats prev curr dep wd).profitAmount > 0 →
      (calculateProfitStats prev curr dep wd).type = "USER_DEPOSIT") ∧
    (∀ prev curr dep wd : ℚ, ¬ wd > 0 → ¬ dep > 0 →
      (calculateProfitStats prev curr dep wd).type = "BANK_PROFIT") ∧
    (calculateProfitStats 100 100 5 10).type = "WITHDRAWAL" ∧
    (calculateProfitStats 100 120 10 0).type = "MIXED" ∧
    (calculateProfitStats 100 120 10 0).profitAmount = 10 ∧
    (calculateProfitStats 100 105 10 0).type = "USER_DEPOSIT" ∧
    (calculateProfitStats 100 105 10 0).profitAmount = -5 ∧
    (calculateProfitStats 100 110 0 0).type = "BANK_PROFIT" ∧
    (calculateProfitStats 100 110 0 0).profitAmount = 10 := by
  refine ⟨?_, ?_, ?_, ?_, ?_, ?_, ?_, ?_, ?_, ?_, ?_⟩
  · intro prev curr dep wd h1
    simp [calculateProfitStats, h1]
  · intro prev curr dep wd h1 h2 h3
    simp only [calculateProfitStats] at h3 ⊢
    simp [h1, h2, h3]
  · intro prev curr dep wd h1 h2 h3
    simp only [calculateProfitStats] at h3 ⊢
    simp [h1, h2, h3]
  · intro prev curr dep wd h1 h2
    simp [calculateProfitStats, h1, h2]
  all_goals norm_num [calculateProfitStats, profitBase]

theorem c4_witness : (calculateProfitStats 1 1 0 1).type = "WITHDRAWAL" :=
  c4_type_priority.1 1 1 0 1 (by norm_num)

/-- C5: the percentage divisor is previousBalance when positive, else userDeposit when
positive, else 1; it is always positive so the division is by a nonzero rational, and
the two zero-base examples of the spec hold. -/
theorem c5_zero_base_fallback :
    (∀ prev dep : ℚ, 0 < profitBase prev dep) ∧
    (∀ prev dep : ℚ, prev > 0 → profitBase prev dep = prev) ∧
    (∀ prev dep : ℚ, ¬ prev > 0 → dep > 0 → profitBase prev dep = dep) ∧
    (∀ prev dep : ℚ, ¬ prev > 0 → ¬ dep > 0 → profitBase prev dep = 1) ∧
    (∀ prev curr dep wd : ℚ, (calculateProfitStats prev curr dep wd).profitPercentage =
      (calculateProfitStats prev curr dep wd).profitAmount / profitBase prev dep * 100) ∧
    (calculateProfitStats 0 50 0 0).profitPercentage = 5000 ∧
    (calculateProfitStats 0 50 20 0).profitAmount = 30 ∧
    (calculateProfitStats 0 50 20 0).profitPercentage = 150 := by
  refine ⟨?_, ?_, ?_, ?_, ?_, ?_, ?_, ?_⟩
  · intro prev dep
    unfold profitBase
    split_ifs with h1 h2
    · exact h1
    · exact h2
    · norm_num
  · intro prev dep h1
    simp [profitBase, h1]
  · intro prev dep h1 h2
    simp [profitBase, h1, h2]
  · intro prev dep h1 h2
    simp [profitBase, h1, h2]
  · intro prev curr dep wd
    simp [calculateProfitStats]
  all_goals norm_num [calculateProfitStats, profitBase]

theorem c5_witness : profitBase 7 0 = 7 :=
  c5_zero_base_fallback.2.1 7 0 (by norm_num)

/-- C6: when no account in the collection has the target id, healing returns both
inputs unchanged. -/
theorem c6_missing_account_noop (txs : List Transaction) (aid : String) (accs : List Account)
    (h : ∀ a ∈ accs, a.id ≠ aid) :
    healTransactionChain txs aid accs = { healedTxs := txs, updatedAccounts := accs } := by
  have hfind : accs.find? (fun a => a.id = aid) = none := by
    rw [List.find?_eq_none]
    intro a ha
    simpa using h a ha
  simp [healTransactionChain, hfind]

theorem c6_witness :
    healTransactionChain [txJan] "nonexistent-id" [accA] =
      { healedTxs := [txJan], updatedAccounts := [accA] } :=
  c6_missing_account_noop [txJan] "nonexistent-id" [accA] (by decide)

/-- C7: healing account aid is frame preserving: transactions of other accounts pass
through as the same list, every other account is unchanged, the affected account can
change only in currentBalance, and the affected chain keeps its authoritative inputs. -/
theorem c7_frame_preservation {txs : List Transaction} {aid : String} {accs : List Account}
    {account : Account} (h : accs.find? (fun a => a.id = aid) = some account) :
    (healTransactionChain txs aid accs).healedTxs.filter (fun t => t.accountId ≠ aid) =
      txs.filter (fun t => t.accountId ≠ aid) ∧
    List.Forall₂ (fun a b => (a.id = aid → Account.sameExceptBalance a b) ∧ (a.id ≠ aid → a = b))
      accs (healTransactionChain txs aid accs).updatedAccounts ∧
    List.Forall₂ Transaction.sameInputs (accountChain txs aid)
      ((healTransactionChain txs aid accs).healedTxs.filter (fun t => t.accountId = aid)) := by
  refine ⟨heal_healedTxs_filter_ne txs aid accs, ?_, ?_⟩
  · rw [heal_some h]
    dsimp only
    rw [List.forall₂_map_right_iff, List.forall₂_same]
    intro a _
    constructor
    · intro haid
      rw [if_pos haid]
      exact ⟨rfl, rfl, rfl, rfl, rfl, rfl, rfl, rfl⟩
    · intro haid
      simp [haid]
  · rw [heal_healedTxs_filter_eq h]
    exact healReplay_sameInputs _ _

theorem c7_witness :
    (healTransactionChain [txJan] "1" [accA]).healedTxs.filter (fun t => t.accountId ≠ "1") =
      [txJan].filter (fun t => t.accountId ≠ "1") ∧
    List.Forall₂ (fun a b => (a.id = "1" → Account.sameExceptBalance a b) ∧ (a.id ≠ "1" → a = b))
      [accA] (healTransactionChain [txJan] "1" [accA]).updatedAccounts ∧
    List.Forall₂ Transaction.sameInputs (accountChain [txJan] "1")
      ((healTransactionChain [txJan] "1" [accA]).healedTxs.filter (fun t => t.accountId = "1")) :=
  @c7_frame_preservation [txJan] "1" [accA] accA (by decide)

lemma heal_balanceInvariant {txs : List Transaction} {aid : String} {accs : List Account}
    {account : Account} (h : accs.find? (fun a => a.id = aid) = some account) :
    balanceInvariant { accounts := (healTransactionChain txs aid accs).updatedAccounts,
                       transactions := (healTransactionChain txs aid accs).healedTxs } aid := by
  intro a ha
  dsimp only at ha ⊢
  rw [heal_updated_find? h] at ha
  obtain rfl : a = { account with currentBalance :=
      match (healReplay (jsOr account.initialCapital 0) (accountChain txs aid)).getLast? with
      | some tx => tx.currentBalance
      | none => account.initialCapital } := by
    exact ((Option.some.injEq _ _).mp ha).symm
  rw [heal_accountChain h]

/-- C8 (amended): the heal based transaction handlers, save (create or edit) and
delete, re-heal the affected chain, so afterwards the affected account currentBalance
equals the currentBalance of its date-latest transaction, or its initialCapital when
the chain is empty. The direct handleAddTransaction of src/App.tsx does not re-heal
and violates the original claim. -/
theorem c8_reheal_invariant (s : AppState) (editing : Bool) (tx txd : Transaction)
    (account account2 : Account)
    (h1 : s.accounts.find? (fun a => a.id = tx.accountId) = some account)
    (h2 : s.accounts.find? (fun a => a.id = txd.accountId) = some account2) :
    balanceInvariant (handleSaveTransaction s editing tx) tx.accountId ∧
    balanceInvariant (confirmDeleteTransaction s txd) txd.accountId :=
  ⟨heal_balanceInvariant h1, heal_balanceInvariant h2⟩

theorem c8_witness :
    balanceInvariant (handleSaveTransaction ⟨[accA], []⟩ false txJan) txJan.accountId ∧
    balanceInvariant (confirmDeleteTransaction ⟨[accA], []⟩ txJan) txJan.accountId :=
  c8_reheal_invariant ⟨[accA], []⟩ false txJan txJan accA accA (by decide) (by decide)

/-- C8 counterexample: adding a transaction through handleAddTransaction of
src/App.tsx with a date earlier than an existing transaction leaves the account with
the balance of the new transaction, not of its date-latest transaction. -/
theorem c8_counterexample :
    ¬ balanceInvariant (handleAddTransaction ⟨[accA], [txFeb]⟩ txJan) "1" := by
  intro h
  have hfind : (handleAddTransaction ⟨[accA], [txFeb]⟩ txJan).accounts.find?
      (fun x => x.id = "1") = some { accA with currentBalance := 1100 } := by decide
  have h1 := h { accA with currentBalance := 1100 } hfind
  have htx : (handleAddTransaction ⟨[accA], [txFeb]⟩ txJan).transactions =
      [txFeb, txJan] := rfl
  rw [htx] at h1
  have hchain : accountChain [txFeb, txJan] "1" = [txJan, txFeb] := by
    have hfil : [txFeb, txJan].filter (fun t => t.accountId = "1") = [txFeb, txJan] := by decide
    have ha : txLe txFeb txJan = false := by decide
    have hb : txLe txJan txFeb = true := by decide
    simp [accountChain, sortByDate, hfil, List.mergeSort, List.splitInTwo, List.splitAt,
      List.splitAt.go, List.merge, ha, hb]
  rw [hchain] at h1
  simp [accA, txFeb] at h1

/-- Sample parser state positioned in the accounts section. -/
def stAccounts : ParseState :=
  { currentSection := ImportSection.ACCOUNTS, accounts := [], transactions := [] }

/-- A CSV account row carrying an unrecognized currency and investment type. -/
def rowBitcoin : List Char := "a1,MyBank,EUR,Bitcoin,2024-01-01,12,Low,100,50".data

/-- A CSV document whose single account row has an unrecognized currency (EUR) and an
unrecognized investment type (Bitcoin). -/
def badImport : String :=
  "---ACCOUNTS---\nID,Bank Name,Currency,Type,Start Date,Maturity,Risk,Current Balance,Initial Capital\na1,MyBank,EUR,Bitcoin,2024-01-01,12,Low,100,50"

/-- C9 (amended): for any non-marker, non-header line, an accounts-section row with at
least 8 fields is always imported, whatever its currency or investment-type values:
the result appends exactly one account, keeping the old ones; its currency is the raw
value when recognized and TRY otherwise; its investment type is the raw value when
non-empty and the participation default only for an empty field. Rows with fewer than
8 fields (accounts) or 9 fields (transactions) produce no record. -/
theorem c9_import_row_policy (st : ParseState) (line : List Char)
    (hm1 : listContainsSeq (line.map Char.toUpper) "---ACCOUNTS---".data = false)
    (hm2 : listContainsSeq (line.map Char.toUpper) "---TRANSACTIONS---".data = false)
    (hh : listStartsWith (line.map Char.toLower) "id,".data = false) :
    (st.currentSection = ImportSection.ACCOUNTS → (cleanLine line).length ≥ 8 →
      (processLine st line).accounts.take st.accounts.length = st.accounts ∧
      (processLine st line).accounts.length = st.accounts.length + 1 ∧
      (processLine st line).transactions = st.transactions ∧
      ((processLine st line).accounts.getLast?.map (fun a => a.currency)) =
        some (if (cleanLine line).getD 2 "" = "TRY" ∨ (cleanLine line).getD 2 "" = "USD"
          then (cleanLine line).getD 2 "" else "TRY") ∧
      ((processLine st line).accounts.getLast?.map (fun a => a.investmentType)) =
        some (jsOrS ((cleanLine line).getD 3 "") "Participation Account")) ∧
    (st.currentSection = ImportSection.ACCOUNTS → (cleanLine line).length < 8 →
      processLine st line = st) ∧
    (st.currentSection = ImportSection.TRANSACTIONS → (cleanLine line).length < 9 →
      processLine st line = st) := by
  refine ⟨?_, ?_, ?_⟩
  · intro hsec hlen
    simp only [processLine, hm1, hm2, hh, Bool.false_eq_true, if_false, hsec]
    rw [if_pos ⟨trivial, hlen⟩]
    refine ⟨List.take_left _ _, ?_, rfl, ?_, ?_⟩
    · simp
    · rw [List.getLast?_concat]
      rfl
    · rw [List.getLast?_concat]
      rfl
  · intro hsec hlen
    simp only [processLine, hm1, hm2, hh, Bool.false_eq_true, if_false, hsec]
    rw [if_neg (by omega), if_neg (by simp)]
  · intro hsec hlen
    simp only [processLine, hm1, hm2, hh, Bool.false_eq_true, if_false, hsec]
    rw [if_neg (by simp), if_neg (by omega)]

theorem c9_witness :
    ((processLine stAccounts rowBitcoin).accounts.getLast?.map (fun a => a.investmentType)) =
      some (jsOrS ((cleanLine rowBitcoin).getD 3 "") "Participation Account") :=
  ((c9_import_row_policy stAccounts rowBitcoin (by decide) (by decide) (by decide)).1
    rfl (by decide)).2.2.2.2

/-- C9 counterexample: the row with investment type Bitcoin is imported carrying the
raw string Bitcoin rather than the participation default, while the unrecognized
currency EUR does fall back to TRY. -/
theorem c9_counterexample :
    (parseImportCSV badImport).accounts.map (fun a => a.investmentType) = ["Bitcoin"] ∧
    (parseImportCSV badImport).accounts.map (fun a => a.currency) = ["TRY"] ∧
    "Bitcoin" ≠ "Participation Account" := by
  refine ⟨by decide, by decide, by decide⟩

/-- C10: merging an import keeps every pre-existing record unchanged as a prefix,
appends only records whose id is non-empty and not already present in state, appends
every such new account, and is a complete no-op (transactions included) when the
imported account list is empty. -/
theorem c10_import_merge (s : AppState) (newAccounts : List Account)
    (newTransactions : List Transaction) :
    (newAccounts = [] → handleImport s newAccounts newTransactions = s) ∧
    (handleImport s newAccounts newTransactions).accounts.take s.accounts.length =
      s.accounts ∧
    (handleImport s newAccounts newTransactions).transactions.take s.transactions.length =
      s.transactions ∧
    (∀ a ∈ (handleImport s newAccounts newTransactions).accounts.drop s.accounts.length,
      a.id ≠ "" ∧ a.id ∉ s.accounts.map (fun x => x.id) ∧ a ∈ newAccounts) ∧
    (∀ t ∈ (handleImport s newAccounts newTransactions).transactions.drop
        s.transactions.length,
      t.id ≠ "" ∧ t.id ∉ s.transactions.map (fun x => x.id) ∧ t ∈ newTransactions) ∧
    (newAccounts ≠ [] → ∀ a ∈ newAccounts, a.id ≠ "" → a.id ∉ s.accounts.map (fun x => x.id) →
      a ∈ (handleImport s newAccounts newTransactions).accounts) := by
  by_cases hne : newAccounts.isEmpty
  · have hnil : newAccounts = [] := List.isEmpty_iff.mp hne
    have hid : handleImport s newAccounts newTransactions = s := by
      simp [handleImport, hne]
    subst hnil
    refine ⟨fun _ => hid, ?_, ?_, ?_, ?_, ?_⟩
    · rw [hid, List.take_length]
    · rw [hid, List.take_length]
    · rw [hid]
      simp
    · rw [hid]
      simp
    · intro hcon
      exact absurd rfl hcon
  · have hb : handleImport s newAccounts newTransactions =
        { accounts := s.accounts ++ newAccounts.filter
            (fun a => a.id ≠ "" ∧ a.id ∉ s.accounts.map (fun x => x.id)),
          transactions := s.transactions ++ newTransactions.filter
            (fun t => t.id ≠ "" ∧ t.id ∉ s.transactions.map (fun x => x.id)) } := by
      simp [handleImport, hne]
    rw [hb]
    dsimp only
    refine ⟨?_, List.take_left _ _, List.take_left _ _, ?_, ?_, ?_⟩
    · intro hnil
      rw [hnil] at hne
      simp at hne
    · rw [List.drop_left]
      intro a ha
      have := List.mem_filter.mp ha
      refine ⟨?_, ?_, this.1⟩
      · have h2 := this.2
        simp at h2
        exact h2.1
      · have h2 := this.2
        simp at h2
        simpa using h2.2
    · rw [List.drop_left]
      intro t ht
      have := List.mem_filter.mp ht
      refine ⟨?_, ?_, this.1⟩
      · have h2 := this.2
        simp at h2
        exact h2.1
      · have h2 := this.2
        simp at h2
        simpa using h2.2
    · intro _ a ha hid1 hid2
      refine List.mem_append.mpr (Or.inr ?_)
      refine List.mem_filter.mpr ⟨ha, ?_⟩
      simp [hid1, hid2]

theorem c10_witness :
    handleImport ⟨[accA], [txJan]⟩ [] [txFeb] = ⟨[accA], [txJan]⟩ :=
  (c10_import_merge ⟨[accA], [txJan]⟩ [] [txFeb]).1 rfl
